import Mathlib

/-!
Verification of the response-normalization and prompt-building core of the
essay-checker front end (`src/components/EssayChecker.tsx`).

The development shallowly embeds the JavaScript logic of
`analyzeEssaySecurely` (the tiered extraction of a feedback summary from the
raw model reply) and `buildEssayPrompt`.  JavaScript strings are embedded as
`List Char` / `String`, `JSON.parse` as a fuel-indexed total parser returning
`Option Json`, JavaScript truthiness and `||`-defaulting explicitly, and a
thrown-and-caught exception as `Option.none` propagation.
-/

/-- Whitespace as matched by the JavaScript regex class `\s` and by
`String.prototype.trim` (the ASCII part plus the common Unicode members;
the source code only ever meets the ASCII ones). -/
def isJsWsJS (c : Char) : Bool :=
  c = ' ' || c = '\t' || c = '\n' || c = '\r' || c = '\x0b' || c = '\x0c' ||
  c = '\u00A0' || c = '\u2028' || c = '\u2029' || c = '\uFEFF'

/-- Whitespace accepted between tokens by `JSON.parse` (RFC 8259). -/
def isJsonWs (c : Char) : Bool :=
  c = ' ' || c = '\t' || c = '\n' || c = '\r'

/-- Drop the longest run of JavaScript `\s` whitespace at the front. -/
def skipJsWs (cs : List Char) : List Char := cs.dropWhile isJsWsJS

/-- `String.prototype.trim`: remove JavaScript whitespace at both ends. -/
def jsTrimChars (cs : List Char) : List Char :=
  ((cs.dropWhile isJsWsJS).reverse.dropWhile isJsWsJS).reverse

/-- Does the pattern (first argument) occur literally at the head of the
second argument?  Mirrors `String.prototype.startsWith`. -/
def startsWithCh : List Char → List Char → Bool
  | [], _ => true
  | _ :: _, [] => false
  | p :: ps, c :: cs => p = c && startsWithCh ps cs

/-- Does the pattern occur literally anywhere in the text?
Mirrors `String.prototype.includes`. -/
def hasSub (pat : List Char) : List Char → Bool
  | [] => startsWithCh pat []
  | c :: cs => startsWithCh pat (c :: cs) || hasSub pat cs

/-- Case-insensitive literal prefix match; on success returns the remainder
after the pattern.  Used to embed the `i`-flagged regex literals. -/
def stripCI : List Char → List Char → Option (List Char)
  | [], cs => some cs
  | _ :: _, [] => none
  | p :: ps, c :: cs => if c.toLower = p.toLower then stripCI ps cs else none

/-- Split on the regex `/\r?\n/` exactly as `String.prototype.split` does:
`"\n"` and `"\r\n"` are separators, a lone `"\r"` is ordinary text. -/
def splitJsLines : List Char → List (List Char)
  | [] => [[]]
  | '\r' :: '\n' :: rest => [] :: splitJsLines rest
  | '\n' :: rest => [] :: splitJsLines rest
  | c :: rest =>
      match splitJsLines rest with
      | l :: ls => (c :: l) :: ls
      | [] => [[c]]

/-- JSON value as produced by `JSON.parse` (numbers restricted to the
integers, the only numeric values the program's data ever carries). -/
inductive Json where
  | null
  | bool (b : Bool)
  | num (n : Int)
  | str (s : String)
  | arr (elems : List Json)
  | obj (fields : List (String × Json))

mutual

/-- Decidable equality of JSON values, by mutual structural recursion
(the `deriving` handler does not support this nested inductive). -/
def jsonDecEq : (a b : Json) → Decidable (a = b)
  | .null, .null => isTrue rfl
  | .bool a, .bool b =>
      if h : a = b then isTrue (congrArg Json.bool h)
      else isFalse (by intro he; exact h (Json.bool.inj he))
  | .num a, .num b =>
      if h : a = b then isTrue (congrArg Json.num h)
      else isFalse (by intro he; exact h (Json.num.inj he))
  | .str a, .str b =>
      if h : a = b then isTrue (congrArg Json.str h)
      else isFalse (by intro he; exact h (Json.str.inj he))
  | .arr a, .arr b =>
      match jsonDecEqList a b with
      | isTrue h => isTrue (congrArg Json.arr h)
      | isFalse h => isFalse (by intro he; exact h (Json.arr.inj he))
  | .obj a, .obj b =>
      match jsonDecEqFields a b with
      | isTrue h => isTrue (congrArg Json.obj h)
      | isFalse h => isFalse (by intro he; exact h (Json.obj.inj he))
  | .null, .bool _ => isFalse (by intro h; exact nomatch h)
  | .null, .num _ => isFalse (by intro h; exact nomatch h)
  | .null, .str _ => isFalse (by intro h; exact nomatch h)
  | .null, .arr _ => isFalse (by intro h; exact nomatch h)
  | .null, .obj _ => isFalse (by intro h; exact nomatch h)
  | .bool _, .null => isFalse (by intro h; exact nomatch h)
  | .bool _, .num _ => isFalse (by intro h; exact nomatch h)
  | .bool _, .str _ => isFalse (by intro h; exact nomatch h)
  | .bool _, .arr _ => isFalse (by intro h; exact nomatch h)
  | .bool _, .obj _ => isFalse (by intro h; exact nomatch h)
  | .num _, .null => isFalse (by intro h; exact nomatch h)
  | .num _, .bool _ => isFalse (by intro h; exact nomatch h)
  | .num _, .str _ => isFalse (by intro h; exact nomatch h)
  | .num _, .arr _ => isFalse (by intro h; exact nomatch h)
  | .num _, .obj _ => isFalse (by intro h; exact nomatch h)
  | .str _, .null => isFalse (by intro h; exact nomatch h)
  | .str _, .bool _ => isFalse (by intro h; exact nomatch h)
  | .str _, .num _ => isFalse (by intro h; exact nomatch h)
  | .str _, .arr _ => isFalse (by intro h; exact nomatch h)
  | .str _, .obj _ => isFalse (by intro h; exact nomatch h)
  | .arr _, .null => isFalse (by intro h; exact nomatch h)
  | .arr _, .bool _ => isFalse (by intro h; exact nomatch h)
  | .arr _, .num _ => isFalse (by intro h; exact nomatch h)
  | .arr _, .str _ => isFalse (by intro h; exact nomatch h)
  | .arr _, .obj _ => isFalse (by intro h; exact nomatch h)
  | .obj _, .null => isFalse (by intro h; exact nomatch h)
  | .obj _, .bool _ => isFalse (by intro h; exact nomatch h)
  | .obj _, .num _ => isFalse (by intro h; exact nomatch h)
  | .obj _, .str _ => isFalse (by intro h; exact nomatch h)
  | .obj _, .arr _ => isFalse (by intro h; exact nomatch h)

def jsonDecEqList : (xs ys : List Json) → Decidable (xs = ys)
  | [], [] => isTrue rfl
  | [], _ :: _ => isFalse (by intro h; exact nomatch h)
  | _ :: _, [] => isFalse (by intro h; exact nomatch h)
  | x :: xs, y :: ys =>
      match jsonDecEq x y with
      | isFalse h => isFalse (by intro he; exact h (List.cons.inj he).1)
      | isTrue h1 =>
          match jsonDecEqList xs ys with
          | isTrue h2 => isTrue (by rw [h1, h2])
          | isFalse h2 => isFalse (by intro he; exact h2 (List.cons.inj he).2)

def jsonDecEqFields : (xs ys : List (String × Json)) → Decidable (xs = ys)
  | [], [] => isTrue rfl
  | [], _ :: _ => isFalse (by intro h; exact nomatch h)
  | _ :: _, [] => isFalse (by intro h; exact nomatch h)
  | (k, v) :: xs, (k2, v2) :: ys =>
      if hk : k = k2 then
        match jsonDecEq v v2 with
        | isFalse h =>
            isFalse (by intro he; exact h (congrArg Prod.snd (List.cons.inj he).1))
        | isTrue hv =>
            match jsonDecEqFields xs ys with
            | isTrue ht => isTrue (by rw [hk, hv, ht])
            | isFalse ht => isFalse (by intro he; exact ht (List.cons.inj he).2)
      else isFalse (by intro he; exact hk (congrArg Prod.fst (List.cons.inj he).1))

end

instance : DecidableEq Json := jsonDecEq

/-- Decode one escape-sequence character of a JSON string literal. -/
def escDecode (e : Char) : Option Char :=
  if e = '"' then some '"'
  else if e = '\\' then some '\\'
  else if e = '/' then some '/'
  else if e = 'n' then some '\n'
  else if e = 't' then some '\t'
  else if e = 'r' then some '\r'
  else if e = 'b' then some '\x08'
  else if e = 'f' then some '\x0c'
  else none

/-- Parse the body of a JSON string literal (the opening quote already
consumed): characters up to the closing quote, honouring the escape
sequences the program's data can contain.  Returns the decoded characters
and the remainder after the closing quote. -/
def parseStringChars : List Char → Option (List Char × List Char)
  | [] => none
  | '"' :: rest => some ([], rest)
  | '\\' :: e :: rest =>
      match escDecode e with
      | some d => (parseStringChars rest).map (fun p => (d :: p.1, p.2))
      | none => none
  | c :: rest => (parseStringChars rest).map (fun p => (c :: p.1, p.2))

/-- Accumulate a run of decimal digits into a natural number, returning the
value and the remainder after the run. -/
def parseDigitsAux : Nat → List Char → Nat × List Char
  | acc, [] => (acc, [])
  | acc, c :: cs =>
      if c.isDigit then parseDigitsAux (acc * 10 + (c.toNat - 48)) cs
      else (acc, c :: cs)

mutual

/-- Fuel-indexed JSON value parser: one JSON value starting at the head of
the input (after optional whitespace), returning the value and the
unconsumed remainder.  The fuel strictly decreases at every recursive call;
`Json.parse` supplies enough fuel for any input it is given. -/
def parseVal : Nat → List Char → Option (Json × List Char)
  | 0, _ => none
  | fuel + 1, cs =>
      match cs.dropWhile isJsonWs with
      | 'n' :: 'u' :: 'l' :: 'l' :: rest => some (.null, rest)
      | 't' :: 'r' :: 'u' :: 'e' :: rest => some (.bool true, rest)
      | 'f' :: 'a' :: 'l' :: 's' :: 'e' :: rest => some (.bool false, rest)
      | '"' :: rest => (parseStringChars rest).map (fun p => (.str ⟨p.1⟩, p.2))
      | '[' :: rest =>
          (match rest.dropWhile isJsonWs with
           | ']' :: rest2 => some (.arr [], rest2)
           | _ => (parseArrItems fuel rest).map (fun p => (.arr p.1, p.2)))
      | '{' :: rest =>
          (match rest.dropWhile isJsonWs with
           | '}' :: rest2 => some (.obj [], rest2)
           | _ => (parseObjItems fuel rest).map (fun p => (.obj p.1, p.2)))
      | '-' :: c :: rest =>
          if c.isDigit then
            let p := parseDigitsAux 0 (c :: rest)
            some (.num (-(p.1 : Int)), p.2)
          else none
      | c :: rest =>
          if c.isDigit then
            let p := parseDigitsAux 0 (c :: rest)
            some (.num (p.1 : Int), p.2)
          else none
      | [] => none

/-- One or more comma-separated array elements followed by `]`. -/
def parseArrItems : Nat → List Char → Option (List Json × List Char)
  | 0, _ => none
  | fuel + 1, cs =>
      match parseVal fuel cs with
      | none => none
      | some (v, rest) =>
          match rest.dropWhile isJsonWs with
          | ',' :: rest2 => (parseArrItems fuel rest2).map (fun p => (v :: p.1, p.2))
          | ']' :: rest2 => some ([v], rest2)
          | _ => none

/-- One or more comma-separated `"key": value` members followed by `}`. -/
def parseObjItems : Nat → List Char → Option (List (String × Json) × List Char)
  | 0, _ => none
  | fuel + 1, cs =>
      match cs.dropWhile isJsonWs with
      | '"' :: rest =>
          match parseStringChars rest with
          | none => none
          | some (key, rest2) =>
              match rest2.dropWhile isJsonWs with
              | ':' :: rest3 =>
                  match parseVal fuel rest3 with
                  | none => none
                  | some (v, rest4) =>
                      match rest4.dropWhile isJsonWs with
                      | ',' :: rest5 =>
                          (parseObjItems fuel rest5).map
                            (fun p => ((⟨key⟩, v) :: p.1, p.2))
                      | '}' :: rest5 => some ([(⟨key⟩, v)], rest5)
                      | _ => none
              | _ => none
      | _ => none

end

/-- `JSON.parse`: a single JSON value spanning the whole input (whitespace
allowed around it), `none` on any syntax error (embedding the thrown
`SyntaxError`). -/
def Json.parse (s : String) : Option Json :=
  match parseVal (s.data.length + 1) s.data with
  | some (j, rest) => if rest.dropWhile isJsonWs = [] then some j else none
  | none => none

/-- The decimal digit character for `d` (`d < 10`). -/
def digitChar (d : Nat) : Char :=
  if d = 0 then '0' else if d = 1 then '1' else if d = 2 then '2'
  else if d = 3 then '3' else if d = 4 then '4' else if d = 5 then '5'
  else if d = 6 then '6' else if d = 7 then '7' else if d = 8 then '8' else '9'

/-- Decimal digits of a natural number, most significant first
(fuel-indexed; `natDigits` supplies sufficient fuel). -/
def natDigitsAux : Nat → Nat → List Char
  | 0, _ => []
  | fuel + 1, n =>
      if n < 10 then [digitChar n]
      else natDigitsAux fuel (n / 10) ++ [digitChar (n % 10)]

/-- Decimal digits of a natural number, most significant first. -/
def natDigits (n : Nat) : List Char := natDigitsAux (n + 1) n

/-- Decimal rendering of an integer as `JSON.stringify` prints it. -/
def intChars (n : Int) : List Char :=
  if n < 0 then '-' :: natDigits n.natAbs else natDigits n.natAbs

/-- Escape one character for inclusion in a JSON string literal. -/
def escapeChar (c : Char) : List Char :=
  if c = '"' then ['\\', '"']
  else if c = '\\' then ['\\', '\\']
  else if c = '\n' then ['\\', 'n']
  else if c = '\t' then ['\\', 't']
  else if c = '\r' then ['\\', 'r']
  else [c]

/-- Escape a whole string body for a JSON string literal. -/
def escapeChars : List Char → List Char
  | [] => []
  | c :: cs => escapeChar c ++ escapeChars cs

mutual

/-- `JSON.stringify` (compact form, no added whitespace) over the embedded
JSON values. -/
def stringifyChars : Json → List Char
  | .null => "null".data
  | .bool true => "true".data
  | .bool false => "false".data
  | .num n => intChars n
  | .str s => '"' :: (escapeChars s.data ++ ['"'])
  | .arr [] => ['[', ']']
  | .arr (x :: xs) => '[' :: (stringifyChars x ++ arrTailChars xs)
  | .obj [] => ['{', '}']
  | .obj (f :: fs) => '{' :: (fieldChars f ++ objTailChars fs)

/-- Remaining array elements, each preceded by a comma, then `]`. -/
def arrTailChars : List Json → List Char
  | [] => [']']
  | x :: xs => ',' :: (stringifyChars x ++ arrTailChars xs)

/-- One `"key":value` object member. -/
def fieldChars : String × Json → List Char
  | (k, v) => '"' :: (escapeChars k.data ++ '"' :: ':' :: stringifyChars v)

/-- Remaining object members, each preceded by a comma, then `}`. -/
def objTailChars : List (String × Json) → List Char
  | [] => ['}']
  | f :: fs => ',' :: (fieldChars f ++ objTailChars fs)

end


/-- JavaScript truthiness of a JSON value. -/
def truthy : Json → Bool
  | .null => false
  | .bool b => b
  | .num n => n != 0
  | .str s => s.data != []
  | .arr _ => true
  | .obj _ => true

/-- Property lookup on a parsed-object member list with the last duplicate
winning, as `JSON.parse` builds objects by successive assignment. -/
def lookupLast : List (String × Json) → String → Option Json
  | [], _ => none
  | (k, v) :: rest, key =>
      match lookupLast rest key with
      | some r => some r
      | none => if k = key then some v else none

/-- JavaScript property access `j.key`: a value for an own member of an
object, `undefined` (here `none`) for anything else. -/
def jsGet (j : Json) (key : String) : Option Json :=
  match j with
  | .obj fields => lookupLast fields key
  | _ => none

/-- Keep a value only when it is defined and truthy (the left operand test
of JavaScript `||`). -/
def jsTruthyOpt : Option Json → Option Json
  | some v => if truthy v then some v else none
  | none => none

/-- `a || b || []` over possibly-undefined values, as in the field
reconciliation of `analyzeEssaySecurely`. -/
def jsPick2 (a b : Option Json) : Json :=
  match jsTruthyOpt a with
  | some v => v
  | none =>
      match jsTruthyOpt b with
      | some v => v
      | none => .arr []

/-- Array-literal spread `...v` of a truthy value: arrays yield their
elements, strings their characters, any other truthy value throws a
`TypeError` (here `none`). -/
def spreadJs : Json → Option (List Json)
  | .arr xs => some xs
  | .str s => some (s.data.map (fun c => .str ⟨[c]⟩))
  | v => if truthy v then none else some []

/-- The optional chain `parsed.sections?.<name>?.suggestions`: property
access returns `undefined` for non-objects, and `?.` short-circuits on
`null`/`undefined`, which `jsGet` already folds in. -/
def sectionChain (parsed : Json) (name : String) : Option Json :=
  ((jsGet parsed "sections").bind (fun s => jsGet s name)).bind
    (fun s => jsGet s "suggestions")

/-- `...(parsed.sections?.<name>?.suggestions || [])`: the optional chain,
the `|| []` default, and the spread. -/
def sectionSuggestionList (parsed : Json) (name : String) : Option (List Json) :=
  match jsTruthyOpt (sectionChain parsed name) with
  | some v => spreadJs v
  | none => some []

/-- The element list the spec's reconciliation rule reads from one section
(used to state the specification side of field reconciliation). -/
def specSectionList (parsed : Json) (name : String) : List Json :=
  match sectionChain parsed name with
  | some (.arr xs) => xs
  | _ => []

/-- Is this possibly-absent field, when present, a JSON array? -/
def optIsArr : Option Json → Bool
  | none => true
  | some (.arr _) => true
  | some _ => false

/-- Is this JSON value an array whose elements are all strings (the shape
the declared TypeScript type `string[]` promises)? -/
def isStrArr : Json → Bool
  | .arr xs => xs.all (fun j => match j with | .str _ => true | _ => false)
  | _ => false

/-- A remainder that may legally follow a serialized JSON value inside a
larger serialization: empty, or starting with a separator, so that number
parsing stops exactly at the value boundary. -/
def okRest : List Char → Prop
  | [] => True
  | c :: _ => c = ',' ∨ c = ']' ∨ c = '\x7d' 

/-- The array literal that defaults `suggestions`: the concatenation of the
four section spreads, in source order, `none` if any spread throws. -/
def fallbackSuggestions (parsed : Json) : Option Json := do
  let a ← sectionSuggestionList parsed "Introduction"
  let b ← sectionSuggestionList parsed "Body"
  let c ← sectionSuggestionList parsed "Conclusion"
  let d ← sectionSuggestionList parsed "GrammarEditing"
  pure (.arr (a ++ b ++ c ++ d))

/-- The `AnalysisResult` record returned by `analyzeEssaySecurely`.  The
declared TypeScript field types are not enforced at runtime, so the three
feedback fields carry whatever JSON values reconciliation produces. -/
structure AnalysisResult where
  strengths : Json
  weaknesses : Json
  suggestions : Json
  grammar : Option Json
  success : Bool
deriving DecidableEq

/-- Field reconciliation shared by the two JSON tiers (source lines
152-163 and 173-184): guarded by `if (parsed)`, with `||`-defaulting per
field; `none` when the guard fails or a spread throws, both of which fall
through to the heuristic tier. -/
def reconcile (parsed : Json) : Option AnalysisResult :=
  if truthy parsed then
    match (match jsTruthyOpt (jsGet parsed "suggestions") with
           | some v => some v
           | none => fallbackSuggestions parsed) with
    | none => none
    | some sugg =>
        some { strengths := jsPick2 (jsGet parsed "strengths") (jsGet parsed "positiveFeedback")
               weaknesses := jsPick2 (jsGet parsed "weaknesses") (jsGet parsed "negativeFeedback")
               suggestions := sugg
               grammar := jsTruthyOpt (jsGet parsed "grammar")
               success := true }
  else none

/-- The capture group of `/JSON_SUMMARY\s*[:=]\s*([\s\S]*)/i` when the
pattern matches at the head of the input. -/
def markerCapture (cs : List Char) : Option (List Char) :=
  match stripCI "JSON_SUMMARY".data cs with
  | none => none
  | some rest =>
      match skipJsWs rest with
      | c :: rest2 => if c = ':' || c = '=' then some (skipJsWs rest2) else none
      | [] => none

/-- `botReply.match(/JSON_SUMMARY\s*[:=]\s*([\s\S]*)/i)`: the capture of
the leftmost match, scanning positions left to right. -/
def findMarkerAux : List Char → Option (List Char)
  | [] => none
  | c :: cs =>
      match markerCapture (c :: cs) with
      | some cap => some cap
      | none => findMarkerAux cs

/-- `.replace(/^```json\s*/i, '')`. -/
def stripFenceJsonPre (cs : List Char) : List Char :=
  match stripCI "```json".data cs with
  | some rest => skipJsWs rest
  | none => cs

/-- `.replace(/^```\s*/i, '')`. -/
def stripFencePre (cs : List Char) : List Char :=
  match stripCI "```".data cs with
  | some rest => skipJsWs rest
  | none => cs

/-- Does `/```\s*$/` match starting exactly here (three backticks followed
by whitespace running to the end)? -/
def fenceEndAt : List Char → Bool
  | a :: b :: d :: rest => a = '`' && b = '`' && d = '`' && rest.all isJsWsJS
  | _ => false

/-- `.replace(/```\s*$/i, '')`: delete from the leftmost such match (which
necessarily runs to the end) onwards. -/
def stripFenceEnd : List Char → List Char
  | [] => []
  | c :: cs => if fenceEndAt (c :: cs) then [] else c :: stripFenceEnd cs

/-- The three chained fence-removing `replace` calls of the source. -/
def stripFences (cs : List Char) : List Char :=
  stripFenceEnd (stripFencePre (stripFenceJsonPre cs))

/-- `raw.indexOf('\x7b')` (source line 147), as an `Option`. -/
def firstBraceIdx (cs : List Char) : Option Nat := cs.findIdx? (fun c => c = '\x7b')

/-- `raw.lastIndexOf('\x7d')` (source line 148), as an `Option`. -/
def lastBraceIdx (cs : List Char) : Option Nat :=
  match cs.reverse.findIdx? (fun c => c = '\x7d') with
  | some k => some (cs.length - 1 - k)
  | none => none

/-- Source lines 147-151: slice from the first `\x7b` to the last `\x7d`
when both exist in that order, otherwise leave the candidate unchanged. -/
def braceSlice (cs : List Char) : List Char :=
  match firstBraceIdx cs, lastBraceIdx cs with
  | some i, some j => if i < j then (cs.drop i).take (j + 1 - i) else cs
  | _, _ => cs

/-- Tier 1 (source lines 141-167): trim the capture, strip fences, slice
the brace span, parse, reconcile; `none` on any failure. -/
def tier1Result (cap : List Char) : Option AnalysisResult :=
  (Json.parse ⟨braceSlice (stripFences (jsTrimChars cap))⟩).bind reconcile

/-- Tier 2 (source lines 168-189): trim the whole reply, strip fences,
parse, reconcile; `none` on any failure. -/
def tier2Result (botReply : String) : Option AnalysisResult :=
  (Json.parse ⟨stripFences (jsTrimChars botReply.data)⟩).bind reconcile

/-- Lower-casing of `String.prototype.toLowerCase` (ASCII-faithful). -/
def lcStr (cs : List Char) : List Char := cs.map Char.toLower

/-- Heuristic strengths test on the lower-cased line (source line 197). -/
def strengthLine (l : List Char) : Bool :=
  startsWithCh "positive".data l || startsWithCh "+".data l || hasSub "strength".data l

/-- Heuristic weaknesses test on the lower-cased line (source line 199). -/
def weakLine (l : List Char) : Bool :=
  startsWithCh "negative".data l || startsWithCh "-".data l ||
  hasSub "improv".data l || hasSub "weak".data l

/-- `line.replace(/^\+\s*/, '')`. -/
def stripLeadPlus : List Char → List Char
  | '+' :: rest => skipJsWs rest
  | cs => cs

/-- `line.replace(/^\-\s*/, '')`. -/
def stripLeadMinus : List Char → List Char
  | '-' :: rest => skipJsWs rest
  | cs => cs

/-- The classification loop of source lines 195-202 over the prepared
lines, returning the positives and negatives buckets in push order. -/
def classifyLines : List (List Char) → List (List Char) × List (List Char)
  | [] => ([], [])
  | line :: rest =>
      let p := classifyLines rest
      if strengthLine (lcStr line) then (stripLeadPlus line :: p.1, p.2)
      else if weakLine (lcStr line) then (p.1, stripLeadMinus line :: p.2)
      else p

/-- Source line 192: split on `/\r?\n/`, trim each line, drop empties. -/
def linesOf (s : String) : List (List Char) :=
  ((splitJsLines s.data).map jsTrimChars).filter (fun l => l ≠ [])

/-- Tier 3 (source lines 191-206): heuristic line classification with the
whole-reply fallback when both buckets end up empty. -/
def heuristicTier (botReply : String) : AnalysisResult :=
  let p := classifyLines (linesOf botReply)
  let ps := if p.1 = [] ∧ p.2 = [] then [botReply.data] else p.1
  { strengths := .arr (ps.map (fun l => .str ⟨l⟩))
    weaknesses := .arr (p.2.map (fun l => .str ⟨l⟩))
    suggestions := .arr []
    grammar := none
    success := true }

/-- The normalization pipeline of `analyzeEssaySecurely` on a successful
reply body (source lines 139-206): marker tier when the marker matches
(falling through to the heuristic tier on failure), otherwise the
whole-reply tier (falling through to the heuristic tier on failure). -/
def normalizeResponse (botReply : String) : AnalysisResult :=
  match findMarkerAux botReply.data with
  | some cap =>
      match tier1Result cap with
      | some r => r
      | none => heuristicTier botReply
  | none =>
      match tier2Result botReply with
      | some r => r
      | none => heuristicTier botReply

/-- Modelled from the spec: the optional grammar member of a serialized
summary; an absent grammar is omitted, as `JSON.stringify` omits
undefined members. -/
def grammarField : Option Json → List (String × Json)
  | some g => [("grammar", g)]
  | none => []

/-- Modelled from the spec: the member list of a summary serialized back
through the JSON shape (the FeedbackSummary fields of spec §3). -/
def summaryFields (r : AnalysisResult) : List (String × Json) :=
  [("strengths", r.strengths), ("weaknesses", r.weaknesses),
   ("suggestions", r.suggestions)] ++ grammarField r.grammar

/-- Modelled from the spec: serialization of a produced summary back
through the JSON shape for the round-trip property of spec §8 (the code
itself never re-serializes a summary); `JSON.stringify` of the object
holding the FeedbackSummary fields. -/
def serializeSummary (r : AnalysisResult) : String :=
  ⟨stringifyChars (.obj (summaryFields r))⟩

/-- The instruction text of `buildEssayPrompt` before the `JSON_SUMMARY=`
marker (the template literal of source lines 37-103, verbatim). -/
def promptPart1 : String := "You are an academic essay evaluation assistant that analyzes essays written in multiple ASEAN languages (such as English, Malay, Indonesian, Filipino, Thai, Vietnamese, Lao, Khmer, Burmese, etc.). Each language may have its own unique grammar, sentence structure, and academic writing style. Your task is to analyze the essay according to the following framework and provide feedback clearly and constructively.

Framework to follow:
1. Introduction
- Does the essay have clear and relevant opening sentences?
- Does it capture attention by (a) stating the importance of the subject, (b) mentioning previous work, or (c) pointing out the absence of work?
- Is there a clearly focused thesis sentence relevant to the title?
- Is there a plan of development that outlines the structure of the essay and signals how the ideas will unfold?

2. Body
- Are the arguments developed in line with the plan of development?
- Does each paragraph have a topic sentence?
- Are there enough supporting details for each point?
- Are illustrations and examples brief and to the point?
- Are transitions smooth and signaled with appropriate discourse markers (e.g., \"in addition,\" \"furthermore,\" \"however\")?
- Has the writer incorporated sources effectively (summary, paraphrase, short quotations)?
- Are references acknowledged both in the text and at the end?

3. Conclusion
- Does the conclusion restate and round off the main ideas?
- Does it summarize the results/findings?
- Does it provide comments, implications, or suggestions?

4. Grammar and Editing
- Are tenses used correctly?
- Do subjects and verbs agree?
- Are clauses used correctly (e.g., avoiding “although…but” in the same sentence)?
- Is the vocabulary academic, precise, and formal?
- Are nouns, pronouns, adjectives, adverbs, and verbs used appropriately for academic writing?
- Is there a balance of sentence types (short/long, simple/complex)?
- Are spelling, typing, and grammar errors avoided?
- Are references formatted correctly?

Output Requirements:
- Provide structured feedback under each section (Introduction, Body, Conclusion, Grammar & Editing).
- Clearly separate Strengths, Weaknesses, and Suggestions.
- Highlight strengths and weaknesses with short quoted examples from the essay when relevant.
- Provide practical improvement suggestions in a constructive tone.
- If the essay is in a non-English ASEAN language, consider the unique grammar and academic conventions of that language when giving feedback and write your feedback in the same language as the essay whenever possible.

Important: Also include a compact JSON summary for UI consumption, with this exact shape (MANDATORY – never omit any top-level key below):
\x7b
  \"strengths\": string[],
  \"weaknesses\": string[],
  \"suggestions\": string[],
  \"positiveFeedback\": string[],
  \"negativeFeedback\": string[],
  \"sections\": \x7b
    \"Introduction\": \x7b \"strengths\": string[], \"weaknesses\": string[], \"suggestions\": string[] \x7d,
    \"Body\": \x7b \"strengths\": string[], \"weaknesses\": string[], \"suggestions\": string[] \x7d,
    \"Conclusion\": \x7b \"strengths\": string[], \"weaknesses\": string[], \"suggestions\": string[] \x7d,
    \"GrammarEditing\": \x7b \"strengths\": string[], \"weaknesses\": string[], \"suggestions\": string[] \x7d
  \x7d,
  \"grammar\": \x7b
    \"overallScore\": number, // REQUIRED: integer 0–100 overall grammar quality
    \"issues\": [ // REQUIRED: can be empty array if no errors; otherwise include concrete items
      \x7b \"type\": string, \"message\": string, \"sentence\": string, \"suggestion\": string \x7d
    ]
  \x7d,
  \"language\": string
\x7d
Formatting rules for the JSON summary:
- Do NOT wrap the JSON in code fences (no fenced code blocks).
- Always include the keys exactly as shown above.
- Use a single line if possible. If multiple lines, still keep valid JSON.

Always print the full narrative feedback first, then print a separate line that starts with EXACTLY: "

/-- The template text after the marker: the tail of the instruction and the
`Essay to analyze` header that precedes the appended essay. -/
def promptPart2 : String := " and then the JSON object on the same line.

Essay to analyze:\n\n"

/-- `buildEssayPrompt` (source lines 36-106): the fixed template with the
essay text appended verbatim at the end. -/
def buildEssayPrompt (essayText : String) : String :=
  promptPart1 ++ "JSON_SUMMARY=" ++ promptPart2 ++ essayText

theorem strAppend_assoc (a b c : String) : a ++ b ++ c = a ++ (b ++ c) := by
  cases a with
  | mk la =>
      cases b with
      | mk lb =>
          cases c with
          | mk lc =>
              show String.mk (la ++ lb ++ lc) = String.mk (la ++ (lb ++ lc))
              rw [List.append_assoc]

theorem jsTruthyOpt_truthy {o : Option Json} {v : Json} (h : jsTruthyOpt o = some v) :
    truthy v = true := by
  cases o with
  | none => cases h
  | some w =>
      simp only [jsTruthyOpt] at h
      by_cases hw : truthy w
      · rw [if_pos hw] at h; cases h; exact hw
      · rw [if_neg hw] at h; cases h

theorem jsPick2_truthy (a b : Option Json) : truthy (jsPick2 a b) = true := by
  unfold jsPick2
  cases ha : jsTruthyOpt a with
  | some v => exact jsTruthyOpt_truthy ha
  | none =>
      cases hb : jsTruthyOpt b with
      | some v => exact jsTruthyOpt_truthy hb
      | none => rfl

theorem fallbackSuggestions_arr {p : Json} {v : Json}
    (h : fallbackSuggestions p = some v) : ∃ xs, v = Json.arr xs := by
  unfold fallbackSuggestions at h
  cases h1 : sectionSuggestionList p "Introduction" with
  | none => rw [h1] at h; cases h
  | some a =>
      rw [h1] at h
      cases h2 : sectionSuggestionList p "Body" with
      | none => rw [h2] at h; cases h
      | some b =>
          rw [h2] at h
          cases h3 : sectionSuggestionList p "Conclusion" with
          | none => rw [h3] at h; cases h
          | some c =>
              rw [h3] at h
              cases h4 : sectionSuggestionList p "GrammarEditing" with
              | none => rw [h4] at h; cases h
              | some d =>
                  rw [h4] at h
                  cases h
                  exact ⟨_, rfl⟩

theorem reconcile_eq {p : Json} {r : AnalysisResult} (h : reconcile p = some r) :
    truthy p = true ∧
    r.strengths = jsPick2 (jsGet p "strengths") (jsGet p "positiveFeedback") ∧
    r.weaknesses = jsPick2 (jsGet p "weaknesses") (jsGet p "negativeFeedback") ∧
    r.grammar = jsTruthyOpt (jsGet p "grammar") ∧
    r.success = true ∧
    ((∃ v, jsTruthyOpt (jsGet p "suggestions") = some v ∧ r.suggestions = v) ∨
     (jsTruthyOpt (jsGet p "suggestions") = none ∧
      fallbackSuggestions p = some r.suggestions)) := by
  unfold reconcile at h
  by_cases ht : truthy p
  · rw [if_pos ht] at h
    cases hs : jsTruthyOpt (jsGet p "suggestions") with
    | some v =>
        rw [hs] at h
        cases h
        exact ⟨ht, rfl, rfl, rfl, rfl, Or.inl ⟨v, rfl, rfl⟩⟩
    | none =>
        rw [hs] at h
        cases hf : fallbackSuggestions p with
        | none => rw [hf] at h; cases h
        | some sugg =>
            rw [hf] at h
            cases h
            exact ⟨ht, rfl, rfl, rfl, rfl, Or.inr ⟨rfl, rfl⟩⟩
  · rw [if_neg ht] at h; cases h

theorem heuristicTier_shape (s : String) :
    ∃ ps ns, heuristicTier s =
      { strengths := .arr ps, weaknesses := .arr ns, suggestions := .arr [],
        grammar := none, success := true } := ⟨_, _, rfl⟩

theorem normalizeResponse_t1 {raw : String} {cap : List Char} {r : AnalysisResult}
    (hm : findMarkerAux raw.data = some cap) (h1 : tier1Result cap = some r) :
    normalizeResponse raw = r := by
  unfold normalizeResponse
  simp only [hm, h1]

theorem normalizeResponse_t1fail {raw : String} {cap : List Char}
    (hm : findMarkerAux raw.data = some cap) (h1 : tier1Result cap = none) :
    normalizeResponse raw = heuristicTier raw := by
  unfold normalizeResponse
  simp only [hm, h1]

theorem normalizeResponse_t2 {raw : String} {r : AnalysisResult}
    (hm : findMarkerAux raw.data = none) (h2 : tier2Result raw = some r) :
    normalizeResponse raw = r := by
  unfold normalizeResponse
  simp only [hm, h2]

theorem normalizeResponse_t2fail {raw : String}
    (hm : findMarkerAux raw.data = none) (h2 : tier2Result raw = none) :
    normalizeResponse raw = heuristicTier raw := by
  unfold normalizeResponse
  simp only [hm, h2]

theorem normalizeResponse_cases (raw : String) :
    (∃ cap r, findMarkerAux raw.data = some cap ∧ tier1Result cap = some r ∧
      normalizeResponse raw = r) ∨
    (∃ r, findMarkerAux raw.data = none ∧ tier2Result raw = some r ∧
      normalizeResponse raw = r) ∨
    normalizeResponse raw = heuristicTier raw := by
  cases hm : findMarkerAux raw.data with
  | some cap =>
      cases h1 : tier1Result cap with
      | some r => exact Or.inl ⟨cap, r, rfl, h1, normalizeResponse_t1 hm h1⟩
      | none => exact Or.inr (Or.inr (normalizeResponse_t1fail hm h1))
  | none =>
      cases h2 : tier2Result raw with
      | some r => exact Or.inr (Or.inl ⟨r, rfl, rfl, normalizeResponse_t2 hm h2⟩)
      | none => exact Or.inr (Or.inr (normalizeResponse_t2fail hm h2))

theorem tierResult_reconcile {o : Option Json} {r : AnalysisResult}
    (h : o.bind reconcile = some r) : ∃ p, o = some p ∧ reconcile p = some r := by
  cases o with
  | none => cases h
  | some p => exact ⟨p, rfl, h⟩

theorem reconcile_truthy {p : Json} {r : AnalysisResult} (h : reconcile p = some r) :
    truthy r.strengths = true ∧ truthy r.weaknesses = true ∧
    truthy r.suggestions = true ∧
    (r.grammar = none ∨ ∃ g, r.grammar = some g ∧ truthy g = true) ∧
    r.success = true := by
  obtain ⟨-, hs, hw, hg, hsc, hsug⟩ := reconcile_eq h
  refine ⟨hs ▸ jsPick2_truthy _ _, hw ▸ jsPick2_truthy _ _, ?_, ?_, hsc⟩
  · rcases hsug with ⟨v, hv, hrv⟩ | ⟨-, hf⟩
    · exact hrv ▸ jsTruthyOpt_truthy hv
    · obtain ⟨xs, hxs⟩ := fallbackSuggestions_arr hf
      rw [hxs]; rfl
  · rw [hg]
    cases hgg : jsTruthyOpt (jsGet p "grammar") with
    | none => exact Or.inl rfl
    | some g => exact Or.inr ⟨g, rfl, jsTruthyOpt_truthy hgg⟩

theorem normalizeResponse_truthy (raw : String) :
    truthy (normalizeResponse raw).strengths = true ∧
    truthy (normalizeResponse raw).weaknesses = true ∧
    truthy (normalizeResponse raw).suggestions = true ∧
    ((normalizeResponse raw).grammar = none ∨
      ∃ g, (normalizeResponse raw).grammar = some g ∧ truthy g = true) ∧
    (normalizeResponse raw).success = true := by
  rcases normalizeResponse_cases raw with ⟨cap, r, -, h1, he⟩ | ⟨r, -, h2, he⟩ | he
  · obtain ⟨p, -, hrec⟩ := tierResult_reconcile h1
    rw [he]; exact reconcile_truthy hrec
  · obtain ⟨p, -, hrec⟩ := tierResult_reconcile h2
    rw [he]; exact reconcile_truthy hrec
  · obtain ⟨ps, ns, hh⟩ := heuristicTier_shape raw
    rw [he, hh]
    exact ⟨rfl, rfl, rfl, Or.inl rfl, rfl⟩

/-- C1 (counterexample): on the reply `{"note":"JSON_SUMMARY= broken"}` the
marker is found and the Tier 1 candidate fails to parse, while the whole
trimmed reply does parse as JSON, so Tier 2 would have produced the empty
reconciliation; yet the code returns the Tier 3 single-entry fallback, so
the parse failure does not fall through to Tier 2 as claimed. -/
theorem marker_parse_failure_not_tier2 :
    tier2Result "\x7b\"note\":\"JSON_SUMMARY= broken\"\x7d" =
      some ⟨.arr [], .arr [], .arr [], none, true⟩ ∧
    normalizeResponse "\x7b\"note\":\"JSON_SUMMARY= broken\"\x7d" =
      ⟨.arr [.str "\x7b\"note\":\"JSON_SUMMARY= broken\"\x7d"], .arr [], .arr [], none, true⟩ ∧
    normalizeResponse "\x7b\"note\":\"JSON_SUMMARY= broken\"\x7d" ≠
      ⟨.arr [], .arr [], .arr [], none, true⟩ :=
  ⟨by decide, by decide, by decide⟩

/-- C1 (amended): whenever Tier 1 finds the marker but its candidate slice
fails to parse (or reconcile), `normalizeResponse` falls through directly
to the Tier 3 line heuristics; Tier 2 whole-response parsing is attempted
only when no marker is found. -/
theorem marker_parse_failure_falls_to_heuristic (raw : String) (cap : List Char)
    (hm : findMarkerAux raw.data = some cap) (h1 : tier1Result cap = none) :
    normalizeResponse raw = heuristicTier raw :=
  normalizeResponse_t1fail hm h1

/-- Witness for the amended C1 at the concrete reply `JSON_SUMMARY= oops`. -/
theorem marker_parse_failure_falls_to_heuristic_witness :
    findMarkerAux "JSON_SUMMARY= oops".data = some "oops".data ∧
    tier1Result "oops".data = none ∧
    normalizeResponse "JSON_SUMMARY= oops" = heuristicTier "JSON_SUMMARY= oops" :=
  ⟨by decide, by decide,
    marker_parse_failure_falls_to_heuristic "JSON_SUMMARY= oops" "oops".data
      (by decide) (by decide)⟩

/-- C2: the normalization is total: every raw reply yields a fully formed
`AnalysisResult` (with `success = true`); parse failures are absorbed by
falling through the tiers, never propagated. -/
theorem normalizeResponse_never_fails (raw : String) :
    (normalizeResponse raw).success = true :=
  (normalizeResponse_truthy raw).2.2.2.2

/-- C3 (counterexample): on the spec's Tier 3 example the classifier
strips only a literal leading `+`/`-`, so the `Positive:`/`Negative:`
labels remain in the recorded lines, refuting the claimed output
`strengths=["good structure"], weaknesses=["weak conclusion"]`. -/
theorem tier3_example_keeps_labels :
    normalizeResponse "Positive: good structure\nNegative: weak conclusion\nrandom line" =
      ⟨.arr [.str "Positive: good structure"], .arr [.str "Negative: weak conclusion"],
       .arr [], none, true⟩ ∧
    normalizeResponse "Positive: good structure\nNegative: weak conclusion\nrandom line" ≠
      ⟨.arr [.str "good structure"], .arr [.str "weak conclusion"], .arr [], none, true⟩ :=
  ⟨by decide, by decide⟩

/-- C3 (amended): Tier 3 classifies each trimmed non-empty line by the
strengths test first (`positive`/`+`/`strength`), then the weaknesses test
(`negative`/`-`/`improv`/`weak`), discarding all other lines; only a
literal leading `+` (resp. `-`) is stripped, so the example yields
`strengths=["Positive: good structure"]`, `weaknesses=["Negative: weak
conclusion"]`, with "random line" discarded. -/
theorem tier3_classification :
    (∀ lines, classifyLines lines =
      ((lines.filter (fun l => strengthLine (lcStr l))).map stripLeadPlus,
       (lines.filter (fun l => !strengthLine (lcStr l) && weakLine (lcStr l))).map
         stripLeadMinus)) ∧
    normalizeResponse "Positive: good structure\nNegative: weak conclusion\nrandom line" =
      ⟨.arr [.str "Positive: good structure"], .arr [.str "Negative: weak conclusion"],
       .arr [], none, true⟩ := by
  constructor
  · intro lines
    induction lines with
    | nil => rfl
    | cons l rest ih =>
        simp only [classifyLines, ih, List.filter_cons]
        by_cases h1 : strengthLine (lcStr l) <;> by_cases h2 : weakLine (lcStr l) <;>
          simp [h1, h2]
  · decide

/-- C6: the two Tier 1 spec examples: marker-anchored extraction parses the
brace span after the marker, tolerating prose before the marker, code
fences, and trailing narrative inside the fenced block. -/
theorem tier1_marker_examples :
    normalizeResponse "Great essay.\nJSON_SUMMARY= \x7b\"strengths\":[\"clear thesis\"],\"weaknesses\":[],\"suggestions\":[],\"grammar\":\x7b\"overallScore\":82,\"issues\":[]\x7d\x7d" =
      ⟨.arr [.str "clear thesis"], .arr [], .arr [],
       some (.obj [("overallScore", .num 82), ("issues", .arr [])]), true⟩ ∧
    normalizeResponse "JSON_SUMMARY=\n```json\n\x7b\"strengths\":[\"x\"]\x7d \nThanks!\n```" =
      ⟨.arr [.str "x"], .arr [], .arr [], none, true⟩ :=
  ⟨by decide, by decide⟩

/-- C7: if classification leaves both buckets empty, the whole raw reply
becomes the single strengths entry, so the heuristic tier never returns a
silently empty summary. -/
theorem tier3_empty_fallback (raw : String)
    (hm : findMarkerAux raw.data = none) (h2 : tier2Result raw = none)
    (hc : classifyLines (linesOf raw) = ([], [])) :
    normalizeResponse raw = ⟨.arr [.str raw], .arr [], .arr [], none, true⟩ := by
  rw [normalizeResponse_t2fail hm h2]
  unfold heuristicTier
  rw [hc]
  simp

/-- Witness for C7 at the spec's example `This essay needs work.`. -/
theorem tier3_empty_fallback_witness :
    findMarkerAux "This essay needs work.".data = none ∧
    tier2Result "This essay needs work." = none ∧
    classifyLines (linesOf "This essay needs work.") = ([], []) ∧
    normalizeResponse "This essay needs work." =
      ⟨.arr [.str "This essay needs work."], .arr [], .arr [], none, true⟩ :=
  ⟨by decide, by decide, by decide,
    tier3_empty_fallback _ (by decide) (by decide) (by decide)⟩

/-- C9: `buildEssayPrompt` is pure (deterministic by construction), appends
the essay text verbatim at the end of the prompt, and the instructions
contain the exact substring `JSON_SUMMARY=`. -/
theorem buildEssayPrompt_spec (essay : String) :
    buildEssayPrompt essay = buildEssayPrompt essay ∧
    (∃ pre, buildEssayPrompt essay = pre ++ essay) ∧
    (∃ a b, buildEssayPrompt essay = a ++ "JSON_SUMMARY=" ++ b) := by
  refine ⟨rfl, ⟨promptPart1 ++ "JSON_SUMMARY=" ++ promptPart2, rfl⟩,
    ⟨promptPart1, promptPart2 ++ essay, ?_⟩⟩
  unfold buildEssayPrompt
  rw [strAppend_assoc (promptPart1 ++ "JSON_SUMMARY=") promptPart2 essay]

/-- C10: each line is put in at most one bucket, and the strengths test has
priority: a line passing both the strengths and the weaknesses tests is
recorded only as a strength and never reaches the weaknesses bucket. -/
theorem tier3_strengths_priority :
    (∀ l rest,
       classifyLines (l :: rest) =
         (stripLeadPlus l :: (classifyLines rest).1, (classifyLines rest).2) ∨
       classifyLines (l :: rest) =
         ((classifyLines rest).1, stripLeadMinus l :: (classifyLines rest).2) ∨
       classifyLines (l :: rest) = classifyLines rest) ∧
    (∀ l rest, strengthLine (lcStr l) = true → weakLine (lcStr l) = true →
       classifyLines (l :: rest) =
         (stripLeadPlus l :: (classifyLines rest).1, (classifyLines rest).2)) := by
  constructor
  · intro l rest
    simp only [classifyLines]
    by_cases h1 : strengthLine (lcStr l) <;> by_cases h2 : weakLine (lcStr l) <;>
      simp [h1, h2]
  · intro l rest h1 _
    simp [classifyLines, h1]

/-- Witness for C10 at `+ improve structure`, a line satisfying both the
strengths test (leading `+`) and the weaknesses test (contains `improv`). -/
theorem tier3_strengths_priority_witness :
    strengthLine (lcStr "+ improve structure".data) = true ∧
    weakLine (lcStr "+ improve structure".data) = true ∧
    classifyLines ["+ improve structure".data] = (["improve structure".data], []) := by
  refine ⟨by decide, by decide, ?_⟩
  rw [tier3_strengths_priority.2 "+ improve structure".data [] (by decide) (by decide)]
  decide

/-- C4 (counterexample): a truthy but wrong-shaped `strengths` (the number
5) is propagated as-is rather than treated as absent, and a grammar report
with `overallScore` 150 (outside [0,100]) is passed through unvalidated. -/
theorem summary_shape_counterexample :
    (normalizeResponse "\x7b\"strengths\":5\x7d").strengths = Json.num 5 ∧
    isStrArr (normalizeResponse "\x7b\"strengths\":5\x7d").strengths = false ∧
    (normalizeResponse "JSON_SUMMARY=\x7b\"grammar\":\x7b\"overallScore\":150,\"issues\":[]\x7d\x7d").grammar =
      some (.obj [("overallScore", .num 150), ("issues", .arr [])]) :=
  ⟨by decide, by decide, by decide⟩

/-- C4 (amended): every produced summary has its three feedback fields
present and truthy (the empty sequence when the corresponding upstream
fields are absent or falsy) and grammar either absent or a truthy value,
with `success = true`; wrong-shaped truthy fields are propagated as-is and
`overallScore` is not range-checked. -/
theorem summary_fields_always_present (raw : String) :
    truthy (normalizeResponse raw).strengths = true ∧
    truthy (normalizeResponse raw).weaknesses = true ∧
    truthy (normalizeResponse raw).suggestions = true ∧
    ((normalizeResponse raw).grammar = none ∨
      ∃ g, (normalizeResponse raw).grammar = some g ∧ truthy g = true) ∧
    (normalizeResponse raw).success = true :=
  normalizeResponse_truthy raw

theorem jsPick2_wellShaped {a b : Option Json} (ha : optIsArr a = true)
    (hb : optIsArr b = true) :
    jsPick2 a b = a.getD (b.getD (Json.arr [])) := by
  cases a with
  | some v =>
      cases v with
      | null => simp [optIsArr] at ha
      | bool x => simp [optIsArr] at ha
      | num x => simp [optIsArr] at ha
      | str x => simp [optIsArr] at ha
      | arr xs => simp [jsPick2, jsTruthyOpt, truthy]
      | obj fs => simp [optIsArr] at ha
  | none =>
      cases b with
      | none => rfl
      | some v =>
          cases v with
          | null => simp [optIsArr] at hb
          | bool x => simp [optIsArr] at hb
          | num x => simp [optIsArr] at hb
          | str x => simp [optIsArr] at hb
          | arr xs => simp [jsPick2, jsTruthyOpt, truthy]
          | obj fs => simp [optIsArr] at hb

theorem sectionSuggestionList_wellShaped {p : Json} {name : String}
    (h : optIsArr (sectionChain p name) = true) :
    sectionSuggestionList p name = some (specSectionList p name) := by
  unfold sectionSuggestionList specSectionList
  cases hc : sectionChain p name with
  | none => rfl
  | some v =>
      rw [hc] at h
      cases v with
      | null => simp [optIsArr] at h
      | bool x => simp [optIsArr] at h
      | num x => simp [optIsArr] at h
      | str x => simp [optIsArr] at h
      | arr xs => simp [jsTruthyOpt, truthy, spreadJs]
      | obj fs => simp [optIsArr] at h

theorem fallbackSuggestions_wellShaped {p : Json}
    (hI : optIsArr (sectionChain p "Introduction") = true)
    (hB : optIsArr (sectionChain p "Body") = true)
    (hC : optIsArr (sectionChain p "Conclusion") = true)
    (hG : optIsArr (sectionChain p "GrammarEditing") = true) :
    fallbackSuggestions p =
      some (.arr (specSectionList p "Introduction" ++ specSectionList p "Body" ++
        specSectionList p "Conclusion" ++ specSectionList p "GrammarEditing")) := by
  unfold fallbackSuggestions
  rw [sectionSuggestionList_wellShaped hI, sectionSuggestionList_wellShaped hB,
      sectionSuggestionList_wellShaped hC, sectionSuggestionList_wellShaped hG]
  simp [List.append_assoc]

/-- C5: under the declared shapes (fields that are present are arrays),
field reconciliation realizes the spec chain: `strengths` is
`parsed.strengths`, else `parsed.positiveFeedback`, else empty;
`weaknesses` likewise from `weaknesses`/`negativeFeedback`; `suggestions`
is `parsed.suggestions`, else the concatenation of the present sections'
suggestions in the fixed order Introduction, Body, Conclusion,
GrammarEditing, else empty; and the spec's Tier 2 example yields
`strengths=["good flow"], weaknesses=["tense errors"]`. -/
theorem reconcile_field_chain :
    (∀ p r, reconcile p = some r →
      optIsArr (jsGet p "strengths") = true →
      optIsArr (jsGet p "positiveFeedback") = true →
      optIsArr (jsGet p "weaknesses") = true →
      optIsArr (jsGet p "negativeFeedback") = true →
      optIsArr (jsGet p "suggestions") = true →
      optIsArr (sectionChain p "Introduction") = true →
      optIsArr (sectionChain p "Body") = true →
      optIsArr (sectionChain p "Conclusion") = true →
      optIsArr (sectionChain p "GrammarEditing") = true →
      r.strengths = (jsGet p "strengths").getD
        ((jsGet p "positiveFeedback").getD (.arr [])) ∧
      r.weaknesses = (jsGet p "weaknesses").getD
        ((jsGet p "negativeFeedback").getD (.arr [])) ∧
      r.suggestions = (jsGet p "suggestions").getD
        (.arr (specSectionList p "Introduction" ++ specSectionList p "Body" ++
          specSectionList p "Conclusion" ++ specSectionList p "GrammarEditing"))) ∧
    normalizeResponse "\x7b\"positiveFeedback\":[\"good flow\"],\"negativeFeedback\":[\"tense errors\"]\x7d" =
      ⟨.arr [.str "good flow"], .arr [.str "tense errors"], .arr [], none, true⟩ := by
  constructor
  · intro p r hrec hS hP hW hN hSug hI hB hC hG
    obtain ⟨-, hs, hw, -, -, hsug⟩ := reconcile_eq hrec
    refine ⟨hs ▸ jsPick2_wellShaped hS hP, hw ▸ jsPick2_wellShaped hW hN, ?_⟩
    cases hjs : jsGet p "suggestions" with
    | some v =>
        rw [hjs] at hSug
        cases v with
        | null => simp [optIsArr] at hSug
        | bool x => simp [optIsArr] at hSug
        | num x => simp [optIsArr] at hSug
        | str x => simp [optIsArr] at hSug
        | obj fs => simp [optIsArr] at hSug
        | arr xs =>
            rcases hsug with ⟨w, hv, hrv⟩ | ⟨hnone, -⟩
            · rw [hjs] at hv
              simp only [jsTruthyOpt, truthy, if_pos] at hv
              injection hv with hv
              rw [hrv, ← hv]
              rfl
            · rw [hjs] at hnone
              simp [jsTruthyOpt, truthy] at hnone
    | none =>
        rcases hsug with ⟨w, hv, hrv⟩ | ⟨-, hf⟩
        · rw [hjs] at hv
          simp [jsTruthyOpt] at hv
        · rw [fallbackSuggestions_wellShaped hI hB hC hG] at hf
          injection hf with hf
          rw [← hf]
          rfl
  · decide

/-- Witness for C5 at the parsed object of the spec's Tier 2 example. -/
theorem reconcile_field_chain_witness :
    reconcile (.obj [("positiveFeedback", .arr [.str "good flow"]),
        ("negativeFeedback", .arr [.str "tense errors"])]) =
      some ⟨.arr [.str "good flow"], .arr [.str "tense errors"], .arr [], none, true⟩ ∧
    (⟨.arr [.str "good flow"], .arr [.str "tense errors"], .arr [], none, true⟩ :
        AnalysisResult).strengths =
      (jsGet (.obj [("positiveFeedback", .arr [.str "good flow"]),
          ("negativeFeedback", .arr [.str "tense errors"])]) "strengths").getD
        ((jsGet (.obj [("positiveFeedback", .arr [.str "good flow"]),
          ("negativeFeedback", .arr [.str "tense errors"])]) "positiveFeedback").getD
          (.arr [])) :=
  ⟨by decide,
    (reconcile_field_chain.1
      (.obj [("positiveFeedback", .arr [.str "good flow"]),
        ("negativeFeedback", .arr [.str "tense errors"])])
      ⟨.arr [.str "good flow"], .arr [.str "tense errors"], .arr [], none, true⟩
      (by decide) (by decide) (by decide) (by decide) (by decide) (by decide)
      (by decide) (by decide) (by decide) (by decide)).1⟩

theorem digitChar_spec : ∀ d, d < 10 → (digitChar d).isDigit = true ∧
    (digitChar d).toNat - 48 = d := by decide

theorem natDigitsAux_spec : ∀ fuel n, n < fuel →
    natDigitsAux fuel n ≠ [] ∧ ∀ c ∈ natDigitsAux fuel n, c.isDigit = true := by
  intro fuel
  induction fuel with
  | zero => intro n h; omega
  | succ f ih =>
      intro n h
      unfold natDigitsAux
      by_cases h10 : n < 10
      · rw [if_pos h10]
        refine ⟨by simp, ?_⟩
        intro c hc
        simp only [List.mem_singleton] at hc
        rw [hc]
        exact (digitChar_spec n h10).1
      · rw [if_neg h10]
        have hdiv : n / 10 < f := by
          have := Nat.div_lt_self (show 0 < n by omega) (show 1 < 10 by omega)
          omega
        obtain ⟨hne, hall⟩ := ih (n / 10) hdiv
        refine ⟨by simp, ?_⟩
        intro c hc
        rw [List.mem_append] at hc
        rcases hc with hc | hc
        · exact hall c hc
        · simp only [List.mem_singleton] at hc
          rw [hc]
          exact (digitChar_spec (n % 10) (Nat.mod_lt _ (by omega))).1

theorem natDigits_ne_nil (n : Nat) : natDigits n ≠ [] :=
  (natDigitsAux_spec (n + 1) n (by omega)).1

theorem natDigits_all_digit (n : Nat) : ∀ c ∈ natDigits n, c.isDigit = true :=
  (natDigitsAux_spec (n + 1) n (by omega)).2

theorem parseDigitsAux_all (ds : List Char) :
    (∀ c ∈ ds, c.isDigit = true) → ∀ acc rest,
    parseDigitsAux acc (ds ++ rest) =
      parseDigitsAux (ds.foldl (fun a c => a * 10 + (c.toNat - 48)) acc) rest := by
  induction ds with
  | nil => intro _ acc rest; rfl
  | cons c ds ih =>
      intro hds acc rest
      have hc := hds c (by simp)
      simp only [List.cons_append, parseDigitsAux, hc, if_pos, List.foldl_cons]
      exact ih (fun x hx => hds x (by simp [hx])) _ _

theorem foldl_natDigitsAux : ∀ fuel n, n < fuel → ∀ acc,
    (natDigitsAux fuel n).foldl (fun a c => a * 10 + (c.toNat - 48)) acc =
      acc * 10 ^ (natDigitsAux fuel n).length + n := by
  intro fuel
  induction fuel with
  | zero => intro n h; omega
  | succ f ih =>
      intro n h acc
      unfold natDigitsAux
      by_cases h10 : n < 10
      · rw [if_pos h10]
        simp only [List.foldl_cons, List.foldl_nil, List.length_singleton,
          (digitChar_spec n h10).2, pow_one]
      · rw [if_neg h10]
        have hdiv : n / 10 < f := by
          have := Nat.div_lt_self (show 0 < n by omega) (show 1 < 10 by omega)
          omega
        rw [List.foldl_append, ih (n / 10) hdiv acc]
        simp only [List.foldl_cons, List.foldl_nil, List.length_append,
          List.length_singleton, (digitChar_spec (n % 10) (Nat.mod_lt _ (by omega))).2]
        rw [pow_succ, ← mul_assoc]
        generalize acc * 10 ^ (natDigitsAux f (n / 10)).length = X
        omega

theorem parseDigits_natDigits (n : Nat) (rest : List Char) (hrest : okRest rest) :
    parseDigitsAux 0 (natDigits n ++ rest) = (n, rest) := by
  rw [parseDigitsAux_all (natDigits n) (natDigits_all_digit n) 0 rest]
  unfold natDigits
  rw [foldl_natDigitsAux (n + 1) n (by omega) 0]
  simp only [Nat.zero_mul, Nat.zero_add]
  cases rest with
  | nil => rfl
  | cons c cs =>
      unfold okRest at hrest
      have hcd : c.isDigit = false := by
        rcases hrest with h | h | h <;> rw [h] <;> rfl
      simp [parseDigitsAux, hcd]

theorem parseStringChars_escape (s : List Char) (rest : List Char) :
    parseStringChars (escapeChars s ++ '"' :: rest) = some (s, rest) := by
  induction s with
  | nil => rfl
  | cons c cs ih =>
      show parseStringChars ((escapeChar c ++ escapeChars cs) ++ '"' :: rest) = _
      unfold escapeChar
      by_cases h1 : c = '"'
      · rw [if_pos h1, h1]
        simp [parseStringChars, escDecode, ih]
      · rw [if_neg h1]
        by_cases h2 : c = '\\'
        · rw [if_pos h2, h2]
          simp [parseStringChars, escDecode, ih]
        · rw [if_neg h2]
          by_cases h3 : c = '\n'
          · rw [if_pos h3, h3]
            simp [parseStringChars, escDecode, ih]
          · rw [if_neg h3]
            by_cases h4 : c = '\t'
            · rw [if_pos h4, h4]
              simp [parseStringChars, escDecode, ih]
            · rw [if_neg h4]
              by_cases h5 : c = '\r'
              · rw [if_pos h5, h5]
                simp [parseStringChars, escDecode, ih]
              · rw [if_neg h5]
                have heq : parseStringChars (c :: (escapeChars cs ++ '"' :: rest)) =
                    (parseStringChars (escapeChars cs ++ '"' :: rest)).map
                      (fun p => (c :: p.1, p.2)) := by
                  simp [parseStringChars, h1, h2]
                rw [List.singleton_append, List.cons_append, heq, ih]
                rfl

theorem isDigit_not_special {c : Char} (h : c.isDigit = true) :
    isJsonWs c = false ∧ c ≠ 'n' ∧ c ≠ 't' ∧ c ≠ 'f' ∧ c ≠ '"' ∧ c ≠ '[' ∧
    c ≠ '\x7b' ∧ c ≠ '-' ∧ c ≠ ']' ∧ c ≠ '\x7d' ∧ c ≠ ',' ∧ c ≠ '\\' := by
  have hws : isJsonWs c = false := by
    by_contra hw
    rw [Bool.not_eq_false] at hw
    unfold isJsonWs at hw
    simp only [Bool.or_eq_true, decide_eq_true_eq] at hw
    obtain ((h1 | h1) | h1) | h1 := hw <;> subst h1 <;> exact absurd h (by decide)
  refine ⟨hws, ?_, ?_, ?_, ?_, ?_, ?_, ?_, ?_, ?_, ?_, ?_⟩ <;>
    (intro he; rw [he] at h; exact absurd h (by decide))

theorem stringifyChars_head (j : Json) :
    ∃ c t, stringifyChars j = c :: t ∧ isJsonWs c = false ∧ c ≠ ']' ∧ c ≠ '\x7d' := by
  cases j with
  | null => exact ⟨'n', _, rfl, by decide, by decide, by decide⟩
  | bool b =>
      cases b with
      | false => exact ⟨'f', _, rfl, by decide, by decide, by decide⟩
      | true => exact ⟨'t', _, rfl, by decide, by decide, by decide⟩
  | num n =>
      show ∃ c t, intChars n = c :: t ∧ _
      unfold intChars
      by_cases hneg : n < 0
      · rw [if_pos hneg]
        exact ⟨'-', _, rfl, by decide, by decide, by decide⟩
      · rw [if_neg hneg]
        obtain ⟨d, ds, hds⟩ := List.exists_cons_of_ne_nil (natDigits_ne_nil n.natAbs)
        have hd : d.isDigit = true := natDigits_all_digit _ d (by rw [hds]; simp)
        obtain ⟨hws, -, -, -, -, -, -, -, h9, h10, -, -⟩ := isDigit_not_special hd
        exact ⟨d, ds, hds, hws, h9, h10⟩
  | str s => exact ⟨'"', _, rfl, by decide, by decide, by decide⟩
  | arr es =>
      cases es with
      | nil => exact ⟨'[', _, rfl, by decide, by decide, by decide⟩
      | cons x xs => exact ⟨'[', _, rfl, by decide, by decide, by decide⟩
  | obj fs =>
      cases fs with
      | nil => exact ⟨'\x7b', _, rfl, by decide, by decide, by decide⟩
      | cons f0 fs => exact ⟨'\x7b', _, rfl, by decide, by decide, by decide⟩

theorem stringifyChars_length_pos (j : Json) : 1 ≤ (stringifyChars j).length := by
  obtain ⟨c, t, h, -⟩ := stringifyChars_head j
  rw [h]
  simp

theorem dropWhile_cons_false {c : Char} {t : List Char} (h : isJsonWs c = false) :
    (c :: t).dropWhile isJsonWs = c :: t := by
  simp [List.dropWhile_cons, h]

theorem arrTail_okRest (xs : List Json) (rest : List Char) :
    okRest (arrTailChars xs ++ rest) := by
  cases xs with
  | nil => exact Or.inr (Or.inl rfl)
  | cons y ys => exact Or.inl rfl

theorem objTail_okRest (fs : List (String × Json)) (rest : List Char) :
    okRest (objTailChars fs ++ rest) := by
  cases fs with
  | nil => exact Or.inr (Or.inr rfl)
  | cons g gs => exact Or.inl rfl

theorem arrTail_length_pos (xs : List Json) : 1 ≤ (arrTailChars xs).length := by
  cases xs <;> simp [arrTailChars]

theorem objTail_length_pos (fs : List (String × Json)) : 1 ≤ (objTailChars fs).length := by
  cases fs <;> simp [objTailChars]

theorem fieldChars_length (k : String) (v : Json) :
    (stringifyChars v).length + 3 ≤ (fieldChars (k, v)).length := by
  show (stringifyChars v).length + 3 ≤
    ('"' :: (escapeChars k.data ++ '"' :: ':' :: stringifyChars v)).length
  simp [List.length_cons, List.length_append]

theorem parseVal_digit (f : Nat) (d : Char) (t : List Char) (hd : d.isDigit = true) :
    parseVal (f + 1) (d :: t) =
      some (.num ((parseDigitsAux 0 (d :: t)).1 : Int), (parseDigitsAux 0 (d :: t)).2) := by
  obtain ⟨hws, hn, ht2, hf2, hq, hb, hcb, hm, -, -, -, -⟩ := isDigit_not_special hd
  simp only [parseVal]
  rw [dropWhile_cons_false hws]
  split
  next x rest heq => exact absurd (List.cons.inj heq).1 hn
  next x rest heq => exact absurd (List.cons.inj heq).1 ht2
  next x rest heq => exact absurd (List.cons.inj heq).1 hf2
  next x rest heq => exact absurd (List.cons.inj heq).1 hq
  next x rest heq => exact absurd (List.cons.inj heq).1 hb
  next x rest heq => exact absurd (List.cons.inj heq).1 hcb
  next x c rest heq => exact absurd (List.cons.inj heq).1 hm
  next x c rest heq =>
      obtain ⟨rfl, rfl⟩ := List.cons.inj heq
      rw [if_pos hd]
  next x heq => exact absurd heq (by simp)

theorem parseVal_arr_cons (f : Nat) (c : Char) (t : List Char)
    (hws : isJsonWs c = false) (hne : c ≠ ']') :
    parseVal (f + 1) ('[' :: c :: t) =
      (parseArrItems f (c :: t)).map (fun (p : List Json × List Char) => (Json.arr p.1, p.2)) := by
  show (match ('[' :: c :: t).dropWhile isJsonWs with
        | 'n' :: 'u' :: 'l' :: 'l' :: rest => some (Json.null, rest)
        | 't' :: 'r' :: 'u' :: 'e' :: rest => some (Json.bool true, rest)
        | 'f' :: 'a' :: 'l' :: 's' :: 'e' :: rest => some (Json.bool false, rest)
        | '"' :: rest => (parseStringChars rest).map (fun (p : List Char × List Char) => (Json.str ⟨p.1⟩, p.2))
        | '[' :: rest =>
            (match rest.dropWhile isJsonWs with
             | ']' :: rest2 => some (Json.arr [], rest2)
             | _ => (parseArrItems f rest).map (fun (p : List Json × List Char) => (Json.arr p.1, p.2)))
        | '\x7b' :: rest =>
            (match rest.dropWhile isJsonWs with
             | '\x7d' :: rest2 => some (Json.obj [], rest2)
             | _ => (parseObjItems f rest).map (fun (p : List (String × Json) × List Char) => (Json.obj p.1, p.2)))
        | '-' :: cc :: rest =>
            if cc.isDigit then
              let p := parseDigitsAux 0 (cc :: rest)
              some (Json.num (-(p.1 : Int)), p.2)
            else none
        | cc :: rest =>
            if cc.isDigit then
              let p := parseDigitsAux 0 (cc :: rest)
              some (Json.num (p.1 : Int), p.2)
            else none
        | [] => none) =
      (parseArrItems f (c :: t)).map (fun (p : List Json × List Char) => (Json.arr p.1, p.2))
  rw [dropWhile_cons_false (by decide)]
  show (match (c :: t).dropWhile isJsonWs with
        | ']' :: rest2 => some (Json.arr [], rest2)
        | _ => (parseArrItems f (c :: t)).map (fun (p : List Json × List Char) => (Json.arr p.1, p.2))) = _
  rw [dropWhile_cons_false hws]
  split
  next rest2 heq => exact absurd (List.cons.inj heq).1 hne
  next hno => rfl

theorem parseVal_obj_cons (f : Nat) (c : Char) (t : List Char)
    (hws : isJsonWs c = false) (hne : c ≠ '\x7d') :
    parseVal (f + 1) ('\x7b' :: c :: t) =
      (parseObjItems f (c :: t)).map (fun (p : List (String × Json) × List Char) => (Json.obj p.1, p.2)) := by
  show (match ('\x7b' :: c :: t).dropWhile isJsonWs with
        | 'n' :: 'u' :: 'l' :: 'l' :: rest => some (Json.null, rest)
        | 't' :: 'r' :: 'u' :: 'e' :: rest => some (Json.bool true, rest)
        | 'f' :: 'a' :: 'l' :: 's' :: 'e' :: rest => some (Json.bool false, rest)
        | '"' :: rest => (parseStringChars rest).map (fun (p : List Char × List Char) => (Json.str ⟨p.1⟩, p.2))
        | '[' :: rest =>
            (match rest.dropWhile isJsonWs with
             | ']' :: rest2 => some (Json.arr [], rest2)
             | _ => (parseArrItems f rest).map (fun (p : List Json × List Char) => (Json.arr p.1, p.2)))
        | '\x7b' :: rest =>
            (match rest.dropWhile isJsonWs with
             | '\x7d' :: rest2 => some (Json.obj [], rest2)
             | _ => (parseObjItems f rest).map (fun (p : List (String × Json) × List Char) => (Json.obj p.1, p.2)))
        | '-' :: cc :: rest =>
            if cc.isDigit then
              let p := parseDigitsAux 0 (cc :: rest)
              some (Json.num (-(p.1 : Int)), p.2)
            else none
        | cc :: rest =>
            if cc.isDigit then
              let p := parseDigitsAux 0 (cc :: rest)
              some (Json.num (p.1 : Int), p.2)
            else none
        | [] => none) =
      (parseObjItems f (c :: t)).map (fun (p : List (String × Json) × List Char) => (Json.obj p.1, p.2))
  rw [dropWhile_cons_false (by decide)]
  show (match (c :: t).dropWhile isJsonWs with
        | '\x7d' :: rest2 => some (Json.obj [], rest2)
        | _ => (parseObjItems f (c :: t)).map (fun (p : List (String × Json) × List Char) => (Json.obj p.1, p.2))) = _
  rw [dropWhile_cons_false hws]
  split
  next rest2 heq => exact absurd (List.cons.inj heq).1 hne
  next hno => rfl

theorem parseArrItems_step (f : Nat) (cs : List Char) (x : Json) (r : List Char)
    (h : parseVal f cs = some (x, r)) :
    parseArrItems (f + 1) cs =
      (match r.dropWhile isJsonWs with
       | ',' :: rest2 =>
           (parseArrItems f rest2).map (fun (p : List Json × List Char) => (x :: p.1, p.2))
       | ']' :: rest2 => some ([x], rest2)
       | _ => none) := by
  simp only [parseArrItems, h]

theorem parse_stringify_main : ∀ f : Nat,
    (∀ j rest, okRest rest → (stringifyChars j).length ≤ f →
      parseVal f (stringifyChars j ++ rest) = some (j, rest)) ∧
    (∀ x xs rest, okRest rest →
      (stringifyChars x).length + (arrTailChars xs).length ≤ f →
      parseArrItems f (stringifyChars x ++ (arrTailChars xs ++ rest)) =
        some (x :: xs, rest)) ∧
    (∀ k v fs rest, okRest rest →
      (fieldChars (k, v)).length + (objTailChars fs).length ≤ f →
      parseObjItems f (fieldChars (k, v) ++ (objTailChars fs ++ rest)) =
        some ((k, v) :: fs, rest)) := by
  intro f
  induction f with
  | zero =>
      refine ⟨?_, ?_, ?_⟩
      · intro j rest _ hlen
        have := stringifyChars_length_pos j
        omega
      · intro x xs rest _ hlen
        have h1 := stringifyChars_length_pos x
        have h2 := arrTail_length_pos xs
        omega
      · intro k v fs rest _ hlen
        have h1 := fieldChars_length k v
        have h2 := objTail_length_pos fs
        omega
  | succ f ih =>
      obtain ⟨ihV, ihA, ihO⟩ := ih
      refine ⟨?_, ?_, ?_⟩
      · intro j rest hrest hlen
        cases j with
        | null => rfl
        | bool b => cases b <;> rfl
        | num n =>
            show parseVal (f + 1) (intChars n ++ rest) = some (.num n, rest)
            unfold intChars
            by_cases hneg : n < 0
            · rw [if_pos hneg]
              obtain ⟨d, ds, hds⟩ := List.exists_cons_of_ne_nil (natDigits_ne_nil n.natAbs)
              have hd : d.isDigit = true := natDigits_all_digit _ d (by rw [hds]; simp)
              rw [hds, List.cons_append, List.cons_append]
              show (if d.isDigit then
                      let p := parseDigitsAux 0 (d :: (ds ++ rest))
                      some (Json.num (-(p.1 : Int)), p.2)
                    else none) = _
              rw [if_pos hd]
              have hrw : d :: (ds ++ rest) = natDigits n.natAbs ++ rest := by
                rw [hds]; rfl
              simp only [hrw, parseDigits_natDigits _ _ hrest]
              have hval : -((n.natAbs : Int)) = n := by omega
              rw [hval]
            · rw [if_neg hneg]
              obtain ⟨d, ds, hds⟩ := List.exists_cons_of_ne_nil (natDigits_ne_nil n.natAbs)
              have hd : d.isDigit = true := natDigits_all_digit _ d (by rw [hds]; simp)
              rw [hds, List.cons_append]
              rw [parseVal_digit f d (ds ++ rest) hd]
              have hrw : d :: (ds ++ rest) = natDigits n.natAbs ++ rest := by
                rw [hds]; rfl
              simp only [hrw, parseDigits_natDigits _ _ hrest]
              have hval : ((n.natAbs : Int)) = n := by omega
              rw [hval]
        | str s =>
            show parseVal (f + 1) (('"' :: (escapeChars s.data ++ ['"'])) ++ rest) = _
            rw [List.cons_append, List.append_assoc, List.singleton_append]
            show (parseStringChars (escapeChars s.data ++ '"' :: rest)).map
                (fun (p : List Char × List Char) => (Json.str ⟨p.1⟩, p.2)) = _
            rw [parseStringChars_escape]
            rfl
        | arr es =>
            cases es with
            | nil => rfl
            | cons x xs =>
                obtain ⟨c, tx, hcx, hws, hne, -⟩ := stringifyChars_head x
                have hsplit : stringifyChars (.arr (x :: xs)) ++ rest =
                    '[' :: c :: (tx ++ (arrTailChars xs ++ rest)) := by
                  show ('[' :: (stringifyChars x ++ arrTailChars xs)) ++ rest = _
                  rw [hcx]
                  simp [List.cons_append, List.append_assoc]
                rw [hsplit, parseVal_arr_cons f c _ hws hne]
                have hback : c :: (tx ++ (arrTailChars xs ++ rest)) =
                    stringifyChars x ++ (arrTailChars xs ++ rest) := by
                  rw [hcx]; rfl
                rw [hback]
                rw [ihA x xs rest hrest (by
                  have hL : (stringifyChars (Json.arr (x :: xs))).length =
                      1 + ((stringifyChars x).length + (arrTailChars xs).length) := by
                    show ('[' :: (stringifyChars x ++ arrTailChars xs)).length = _
                    simp [List.length_append]
                    omega
                  omega)]
                rfl
        | obj fs0 =>
            cases fs0 with
            | nil => rfl
            | cons kv fs =>
                obtain ⟨k, v⟩ := kv
                have hsplit : stringifyChars (.obj ((k, v) :: fs)) ++ rest =
                    '\x7b' :: '"' :: ((escapeChars k.data ++ '"' :: ':' :: stringifyChars v) ++
                      (objTailChars fs ++ rest)) := by
                  show ('\x7b' :: (('"' :: (escapeChars k.data ++ '"' :: ':' :: stringifyChars v)) ++
                      objTailChars fs)) ++ rest = _
                  simp [List.cons_append, List.append_assoc]
                rw [hsplit, parseVal_obj_cons f '"' _ (by decide) (by decide)]
                have hback : '"' :: ((escapeChars k.data ++ '"' :: ':' :: stringifyChars v) ++
                    (objTailChars fs ++ rest)) =
                    fieldChars (k, v) ++ (objTailChars fs ++ rest) := by
                  show _ = ('"' :: (escapeChars k.data ++ '"' :: ':' :: stringifyChars v)) ++
                    (objTailChars fs ++ rest)
                  rw [List.cons_append]
                rw [hback]
                rw [ihO k v fs rest hrest (by
                  have hL : (stringifyChars (Json.obj ((k, v) :: fs))).length =
                      1 + ((fieldChars (k, v)).length + (objTailChars fs).length) := by
                    show ('\x7b' :: (fieldChars (k, v) ++ objTailChars fs)).length = _
                    simp [List.length_append]
                    omega
                  omega)]
                rfl
      · intro x xs rest hrest hlen
        have h1 := stringifyChars_length_pos x
        have h2 := arrTail_length_pos xs
        have hV : parseVal f (stringifyChars x ++ (arrTailChars xs ++ rest)) =
            some (x, arrTailChars xs ++ rest) :=
          ihV x _ (arrTail_okRest xs rest) (by omega)
        rw [parseArrItems_step f _ x _ hV]
        cases xs with
        | nil => rfl
        | cons y ys =>
            show (match ((',' :: (stringifyChars y ++ arrTailChars ys)) ++
                rest).dropWhile isJsonWs with
              | ',' :: rest2 =>
                  (parseArrItems f rest2).map
                    (fun (p : List Json × List Char) => (x :: p.1, p.2))
              | ']' :: rest2 => some ([x], rest2)
              | _ => none) = some (x :: y :: ys, rest)
            rw [List.cons_append, dropWhile_cons_false (by decide)]
            show (parseArrItems f ((stringifyChars y ++ arrTailChars ys) ++ rest)).map
                (fun (p : List Json × List Char) => (x :: p.1, p.2)) = _
            rw [List.append_assoc]
            rw [ihA y ys rest hrest (by
              have hL : (arrTailChars (y :: ys)).length =
                  1 + ((stringifyChars y).length + (arrTailChars ys).length) := by
                show (',' :: (stringifyChars y ++ arrTailChars ys)).length = _
                simp [List.length_append]
                omega
              omega)]
            rfl
      · intro k v fs rest hrest hlen
        have h2 := objTail_length_pos fs
        have h3 := fieldChars_length k v
        have hV : parseVal f (stringifyChars v ++ (objTailChars fs ++ rest)) =
            some (v, objTailChars fs ++ rest) :=
          ihV v _ (objTail_okRest fs rest) (by omega)
        show parseObjItems (f + 1)
            (('"' :: (escapeChars k.data ++ '"' :: ':' :: stringifyChars v)) ++
              (objTailChars fs ++ rest)) = _
        have hlst : ('"' :: (escapeChars k.data ++ '"' :: ':' :: stringifyChars v)) ++
            (objTailChars fs ++ rest) =
            '"' :: (escapeChars k.data ++
              '"' :: (':' :: (stringifyChars v ++ (objTailChars fs ++ rest)))) := by
          simp [List.cons_append, List.append_assoc]
        rw [hlst]
        show (match parseStringChars (escapeChars k.data ++
                '"' :: (':' :: (stringifyChars v ++ (objTailChars fs ++ rest)))) with
              | none => none
              | some (key, rest2) =>
                  match rest2.dropWhile isJsonWs with
                  | ':' :: rest3 =>
                      (match parseVal f rest3 with
                       | none => none
                       | some (w, rest4) =>
                           match rest4.dropWhile isJsonWs with
                           | ',' :: rest5 =>
                               (parseObjItems f rest5).map
                                 (fun (p : List (String × Json) × List Char) =>
                                   ((⟨key⟩, w) :: p.1, p.2))
                           | '\x7d' :: rest5 => some ([(⟨key⟩, w)], rest5)
                           | _ => none)
                  | _ => none) = some ((k, v) :: fs, rest)
        rw [parseStringChars_escape]
        show (match (':' :: (stringifyChars v ++
                (objTailChars fs ++ rest))).dropWhile isJsonWs with
              | ':' :: rest3 =>
                  (match parseVal f rest3 with
                   | none => none
                   | some (w, rest4) =>
                       match rest4.dropWhile isJsonWs with
                       | ',' :: rest5 =>
                           (parseObjItems f rest5).map
                             (fun (p : List (String × Json) × List Char) =>
                               ((k, w) :: p.1, p.2))
                       | '\x7d' :: rest5 => some ([(k, w)], rest5)
                       | _ => none)
              | _ => none) = some ((k, v) :: fs, rest)
        rw [dropWhile_cons_false (by decide)]
        show (match parseVal f (stringifyChars v ++ (objTailChars fs ++ rest)) with
              | none => none
              | some (w, rest4) =>
                  match rest4.dropWhile isJsonWs with
                  | ',' :: rest5 =>
                      (parseObjItems f rest5).map
                        (fun (p : List (String × Json) × List Char) =>
                          ((k, w) :: p.1, p.2))
                  | '\x7d' :: rest5 => some ([(k, w)], rest5)
                  | _ => none) = some ((k, v) :: fs, rest)
        rw [hV]
        cases fs with
        | nil => rfl
        | cons g gs =>
            obtain ⟨k2, v2⟩ := g
            show (match ((',' :: (fieldChars (k2, v2) ++ objTailChars gs)) ++
                rest).dropWhile isJsonWs with
              | ',' :: rest5 =>
                  (parseObjItems f rest5).map
                    (fun (p : List (String × Json) × List Char) => ((k, v) :: p.1, p.2))
              | '\x7d' :: rest5 => some ([(k, v)], rest5)
              | _ => none) = some ((k, v) :: (k2, v2) :: gs, rest)
            rw [List.cons_append, dropWhile_cons_false (by decide)]
            show (parseObjItems f ((fieldChars (k2, v2) ++ objTailChars gs) ++ rest)).map
                (fun (p : List (String × Json) × List Char) => ((k, v) :: p.1, p.2)) = _
            rw [List.append_assoc]
            rw [ihO k2 v2 gs rest hrest (by
              have hL : (objTailChars ((k2, v2) :: gs)).length =
                  1 + ((fieldChars (k2, v2)).length + (objTailChars gs).length) := by
                show (',' :: (fieldChars (k2, v2) ++ objTailChars gs)).length = _
                simp [List.length_append]
                omega
              omega)]
            rfl

theorem parse_stringify (j : Json) : Json.parse ⟨stringifyChars j⟩ = some j := by
  unfold Json.parse
  have h := (parse_stringify_main ((stringifyChars j).length + 1)).1 j []
    trivial (by omega)
  rw [List.append_nil] at h
  show (match parseVal ((stringifyChars j).length + 1) (stringifyChars j) with
        | some (jv, rest) => if rest.dropWhile isJsonWs = [] then some jv else none
        | none => none) = some j
  rw [h]
  rfl

theorem objTailChars_split (fs : List (String × Json)) :
    ∃ l, objTailChars fs = l ++ ['\x7d'] := by
  induction fs with
  | nil => exact ⟨[], rfl⟩
  | cons g gs ih =>
      obtain ⟨l, hl⟩ := ih
      exact ⟨',' :: (fieldChars g ++ l), by
        show ',' :: (fieldChars g ++ objTailChars gs) = _
        rw [hl, List.cons_append, List.append_assoc]⟩

theorem stringify_obj_split (f0 : String × Json) (fs : List (String × Json)) :
    ∃ m, stringifyChars (.obj (f0 :: fs)) = '\x7b' :: (m ++ ['\x7d']) := by
  obtain ⟨l, hl⟩ := objTailChars_split fs
  refine ⟨fieldChars f0 ++ l, ?_⟩
  show '\x7b' :: (fieldChars f0 ++ objTailChars fs) = _
  rw [hl, List.append_assoc]

theorem jsTrimChars_braced (m : List Char) :
    jsTrimChars ('\x7b' :: (m ++ ['\x7d'])) = '\x7b' :: (m ++ ['\x7d']) := by
  unfold jsTrimChars
  rw [List.dropWhile_cons]
  rw [if_neg (by decide)]
  rw [show ('\x7b' :: (m ++ ['\x7d'])).reverse = '\x7d' :: (m.reverse ++ ['\x7b']) by
    simp [List.reverse_cons, List.reverse_append]]
  rw [List.dropWhile_cons, if_neg (by decide)]
  simp [List.reverse_cons, List.reverse_append]

theorem stripFenceJsonPre_braced (m : List Char) :
    stripFenceJsonPre ('\x7b' :: m) = '\x7b' :: m := rfl

theorem stripFencePre_braced (m : List Char) :
    stripFencePre ('\x7b' :: m) = '\x7b' :: m := rfl

theorem fenceEndAt_last : ∀ (cs : List Char) (c : Char), isJsWsJS c = false → c ≠ '`' →
    fenceEndAt (cs ++ [c]) = false
  | [], c, hws, hbt => rfl
  | [a], c, hws, hbt => rfl
  | [a, b], c, hws, hbt => by
      show fenceEndAt [a, b, c] = false
      unfold fenceEndAt
      simp [hbt]
  | a :: b :: d :: t, c, hws, hbt => by
      show fenceEndAt (a :: b :: d :: (t ++ [c])) = false
      unfold fenceEndAt
      simp [List.all_append, hws]

theorem stripFenceEnd_last : ∀ (l : List Char) (c : Char), isJsWsJS c = false → c ≠ '`' →
    stripFenceEnd (l ++ [c]) = l ++ [c]
  | [], c, hws, hbt => by
      show stripFenceEnd [c] = [c]
      unfold stripFenceEnd
      rw [show fenceEndAt [c] = false from fenceEndAt_last [] c hws hbt]
      simp [stripFenceEnd]
  | a :: l, c, hws, hbt => by
      show stripFenceEnd ((a :: l) ++ [c]) = (a :: l) ++ [c]
      rw [List.cons_append]
      unfold stripFenceEnd
      rw [show fenceEndAt (a :: (l ++ [c])) = false from
        fenceEndAt_last (a :: l) c hws hbt]
      simp only [Bool.false_eq_true, if_false]
      rw [stripFenceEnd_last l c hws hbt]

theorem stripFences_braced (m : List Char) :
    stripFences ('\x7b' :: (m ++ ['\x7d'])) = '\x7b' :: (m ++ ['\x7d']) := by
  unfold stripFences
  rw [stripFenceJsonPre_braced, stripFencePre_braced]
  rw [show '\x7b' :: (m ++ ['\x7d']) = ('\x7b' :: m) ++ ['\x7d'] by rw [List.cons_append]]
  rw [stripFenceEnd_last ('\x7b' :: m) '\x7d' (by decide) (by decide)]

theorem reconcile_summary (s w u : Json) (g : Option Json)
    (hts : truthy s = true) (htw : truthy w = true) (htu : truthy u = true)
    (htg : g = none ∨ ∃ gv, g = some gv ∧ truthy gv = true) :
    reconcile (.obj ([("strengths", s), ("weaknesses", w), ("suggestions", u)] ++
      grammarField g)) = some ⟨s, w, u, g, true⟩ := by
  have hpS : jsPick2 (some s) none = s := by
    unfold jsPick2
    rw [show jsTruthyOpt (some s) = some s by simp [jsTruthyOpt, hts]]
  have hpW : jsPick2 (some w) none = w := by
    unfold jsPick2
    rw [show jsTruthyOpt (some w) = some w by simp [jsTruthyOpt, htw]]
  rcases htg with rfl | ⟨gv, rfl, htgv⟩
  · show reconcile (.obj ([("strengths", s), ("weaknesses", w), ("suggestions", u)] ++
      grammarField none)) = _
    show reconcile (.obj [("strengths", s), ("weaknesses", w), ("suggestions", u)]) = _
    unfold reconcile
    rw [if_pos (show truthy (Json.obj
      [("strengths", s), ("weaknesses", w), ("suggestions", u)]) = true from rfl)]
    have h1 : jsTruthyOpt (jsGet (.obj [("strengths", s), ("weaknesses", w),
        ("suggestions", u)]) "suggestions") = some u := by
      show jsTruthyOpt (some u) = some u
      simp [jsTruthyOpt, htu]
    rw [h1]
    show some (AnalysisResult.mk (jsPick2 (some s) none) (jsPick2 (some w) none) u
      (jsTruthyOpt none) true) = _
    rw [hpS, hpW]
    rfl
  · show reconcile (.obj ([("strengths", s), ("weaknesses", w), ("suggestions", u)] ++
      grammarField (some gv))) = _
    show reconcile (.obj [("strengths", s), ("weaknesses", w), ("suggestions", u),
      ("grammar", gv)]) = _
    unfold reconcile
    rw [if_pos (show truthy (Json.obj [("strengths", s), ("weaknesses", w),
      ("suggestions", u), ("grammar", gv)]) = true from rfl)]
    have h1 : jsTruthyOpt (jsGet (.obj [("strengths", s), ("weaknesses", w),
        ("suggestions", u), ("grammar", gv)]) "suggestions") = some u := by
      show jsTruthyOpt (some u) = some u
      simp [jsTruthyOpt, htu]
    rw [h1]
    show some (AnalysisResult.mk (jsPick2 (some s) none) (jsPick2 (some w) none) u
      (jsTruthyOpt (some gv)) true) = _
    rw [hpS, hpW,
      show jsTruthyOpt (some gv) = some gv by simp [jsTruthyOpt, htgv]]

/-- C8 (counterexample): a summary produced from a reply whose strengths
entry itself contains the marker text serializes to a string that still
contains `JSON_SUMMARY=`; re-normalizing that serialization re-enters
Tier 1, whose candidate fails to parse, and the Tier 3 fallback returns a
different summary, so normalize after serialize is not the identity. -/
theorem roundtrip_counterexample :
    normalizeResponse "JSON_SUMMARY= \x7b\"strengths\":[\"see JSON_SUMMARY= above\"]\x7d" =
      ⟨.arr [.str "see JSON_SUMMARY= above"], .arr [], .arr [], none, true⟩ ∧
    normalizeResponse (serializeSummary (normalizeResponse
        "JSON_SUMMARY= \x7b\"strengths\":[\"see JSON_SUMMARY= above\"]\x7d")) ≠
      normalizeResponse "JSON_SUMMARY= \x7b\"strengths\":[\"see JSON_SUMMARY= above\"]\x7d" :=
  ⟨by decide, by decide⟩

/-- C8 (amended): for every raw reply, serializing the produced summary
back through the JSON shape and normalizing the serialized text again
(which takes the Tier 2 whole-response path) reproduces the same summary,
provided the serialized text does not itself contain the JSON_SUMMARY
marker pattern. -/
theorem roundtrip_idempotent (raw : String)
    (hm : findMarkerAux (serializeSummary (normalizeResponse raw)).data = none) :
    normalizeResponse (serializeSummary (normalizeResponse raw)) =
      normalizeResponse raw := by
  obtain ⟨hts, htw, htu, htg, hsc⟩ := normalizeResponse_truthy raw
  apply normalizeResponse_t2 hm
  unfold tier2Result
  obtain ⟨m, hms⟩ := stringify_obj_split ("strengths", (normalizeResponse raw).strengths)
    ([("weaknesses", (normalizeResponse raw).weaknesses),
      ("suggestions", (normalizeResponse raw).suggestions)] ++
     grammarField (normalizeResponse raw).grammar)
  have hdata : (serializeSummary (normalizeResponse raw)).data =
      '\x7b' :: (m ++ ['\x7d']) := hms
  rw [hdata, jsTrimChars_braced, stripFences_braced, ← hdata]
  show (Json.parse ⟨stringifyChars (.obj
    (summaryFields (normalizeResponse raw)))⟩).bind reconcile =
    some (normalizeResponse raw)
  rw [parse_stringify]
  show reconcile (.obj
    ([("strengths", (normalizeResponse raw).strengths),
      ("weaknesses", (normalizeResponse raw).weaknesses),
      ("suggestions", (normalizeResponse raw).suggestions)] ++
     grammarField (normalizeResponse raw).grammar)) = some (normalizeResponse raw)
  rw [reconcile_summary _ _ _ _ hts htw htu htg]
  have heta : (⟨(normalizeResponse raw).strengths, (normalizeResponse raw).weaknesses,
      (normalizeResponse raw).suggestions, (normalizeResponse raw).grammar, true⟩ :
      AnalysisResult) = normalizeResponse raw := by
    rw [← hsc]
  rw [heta]

/-- Witness for the amended C8 at the raw reply `hello`, whose summary
serializes without any marker occurrence. -/
theorem roundtrip_idempotent_witness :
    findMarkerAux (serializeSummary (normalizeResponse "hello")).data = none ∧
    normalizeResponse (serializeSummary (normalizeResponse "hello")) =
      normalizeResponse "hello" :=
  ⟨by decide, roundtrip_idempotent "hello" (by decide)⟩
